import Mathlib

/-
Verification of crypto_agent.py (Crypto-Ai-Agent repository).

The embedding is a shallow one: every network or library effect is an
explicit input describing what the environment returned, Python ints are
Nat, Python floats are ℚ with the IEEE special values (infinity, NaN) that
the code can actually produce made explicit at the one place they arise
(division by zero in the RSI computation), and a Python exception is an
explicit error value of an Except type.
-/

/-- A JSON value, as produced by response.json() and consumed by the
dictionary and list indexing in the source. Python dictionaries are
association lists keyed by strings. -/
inductive JVal where
  | str (s : String)
  | num (q : ℚ)
  | boolean (b : Bool)
  | null
  | arr (elems : List JVal)
  | obj (fields : List (String × JVal))

/-- The uncontrolled Python exceptions that dictionary and list access can
raise, as distinct from the dedicated exceptions the source raises itself. -/
inductive PyError where
  | indexError
  | keyError
  | attributeError
  | typeError
deriving DecidableEq, Repr

/-- Python d.get(key, default): on a dictionary, the value for the key when
present, otherwise the default; calling .get on a non-dictionary raises
AttributeError. -/
def pyGet (v : JVal) (key : String) (default : JVal) : Except PyError JVal :=
  match v with
  | .obj fields => .ok ((fields.lookup key).getD default)
  | _ => .error .attributeError

/-- Python v[0]: indexing a list returns its first element or raises
IndexError when it is empty; indexing a string returns its first character;
indexing a dictionary with the integer key 0 raises KeyError (no integer
keys occur in this model); other receivers raise TypeError. -/
def pyIndex0 (v : JVal) : Except PyError JVal :=
  match v with
  | .arr [] => .error .indexError
  | .arr (x :: _) => .ok x
  | .str s => if s.isEmpty then .error .indexError else .ok (.str (s.take 1))
  | .obj _ => .error .keyError
  | _ => .error .typeError

/-- Python key in v: on a dictionary, key membership; on a list, membership
of the string among the elements; on a string, a substring test; other
receivers raise TypeError. -/
def pyContains (v : JVal) (key : String) : Except PyError Bool :=
  match v with
  | .obj fields => .ok (fields.lookup key).isSome
  | .arr xs => .ok (xs.any (fun x => match x with | .str s => s = key | _ => false))
  | .str s => .ok (decide (2 ≤ (s.splitOn key).length))
  | _ => .error .typeError

/-- Python v[key] with a string key: dictionary lookup raising KeyError when
the key is absent; any non-dictionary receiver raises TypeError. -/
def pyItem (v : JVal) (key : String) : Except PyError JVal :=
  match v with
  | .obj fields =>
    match fields.lookup key with
    | some x => .ok x
    | none => .error .keyError
  | _ => .error .typeError

/-- What one loop iteration of fetch_with_backoff observes: either an HTTP
response with a status code, or a network-level exception raised by
requests.post or requests.get themselves (timeout, connection refused). -/
inductive AttemptResult where
  | resp (status : Nat)
  | netErr
deriving DecidableEq, Repr

/-- How a call to fetch_with_backoff can fail: with the HTTPError that
raise_for_status raised for a bad status, with the last network-level
exception, or with the generic exception Fetch failed after all retries
raised when the loop ends without returning. -/
inductive FetchError where
  | httpError (status : Nat)
  | netError
  | exhausted
deriving DecidableEq, Repr

/-- The request issued on one loop iteration: requests.post with the JSON
payload when method.upper() equals POST, otherwise requests.get. -/
inductive HttpRequest where
  | post (url : String) (payload : Option JVal)
  | get (url : String)

/-- Python str.upper restricted to ASCII, the fragment relevant to HTTP
method names: each lowercase ASCII letter maps to its uppercase form. -/
def pyUpperChar (c : Char) : Char :=
  if 'a' ≤ c ∧ c ≤ 'z' then Char.ofNat (c.toNat - 32) else c

/-- Python method.upper() as used on line 47 of the source. -/
def pyUpper (s : String) : String := ⟨s.data.map pyUpperChar⟩

/-- Lines 47 to 50 of the source: the method dispatch of one iteration. -/
def issueRequest (url : String) (method : String) (payload : Option JVal) : HttpRequest :=
  if pyUpper method = "POST" then .post url payload else .get url

/-- Observable behaviour of one call to fetch_with_backoff: the requests it
issued in order, the durations it passed to time.sleep in order, and its
final outcome (the status code of the returned response, or the exception
it raised). -/
structure FetchResult where
  requests : List HttpRequest
  sleeps : List Nat
  result : Except FetchError Nat

/-- The loop of fetch_with_backoff (lines 45 to 68), one recursive step per
iteration of for i in range(retries); the input list holds the outcome the
environment produces for each remaining iteration, so rest = [] exactly
when i = retries - 1. A status of 429 or 500 to 599 sleeps, doubles the
delay and continues. Otherwise raise_for_status raises HTTPError for a
status of 400 to 599; HTTPError is a subclass of
requests.exceptions.RequestException, so the except clause catches it and,
unless this is the last iteration, sleeps, doubles the delay and retries,
exactly as it does for a network-level exception. -/
def fetchGo (url : String) (method : String) (payload : Option JVal) (delay : Nat) :
    List AttemptResult → FetchResult
  | [] => ⟨[], [], .error .exhausted⟩
  | o :: rest =>
    let req := issueRequest url method payload
    let r := fetchGo url method payload (delay * 2) rest
    let retryStep : FetchResult := ⟨req :: r.requests, delay :: r.sleeps, r.result⟩
    match o with
    | .resp s =>
      if s = 429 ∨ (500 ≤ s ∧ s ≤ 599) then retryStep
      else if 400 ≤ s ∧ s ≤ 599 then
        match rest with
        | [] => ⟨[req], [], .error (.httpError s)⟩
        | _ :: _ => retryStep
      else ⟨[req], [], .ok s⟩
    | .netErr =>
      match rest with
      | [] => ⟨[req], [], .error .netError⟩
      | _ :: _ => retryStep

/-- fetch_with_backoff (lines 39 to 68). The outcomes list supplies what the
environment returns on each of the retries loop iterations, so its length
plays the role of the retries argument (default 3); delay is the initial
delay argument (default 2). -/
def fetch_with_backoff (url : String) (method : String) (payload : Option JVal)
    (outcomes : List AttemptResult) (delay : Nat) : FetchResult :=
  fetchGo url method payload delay outcomes

/-- The statuses the source treats as retryable on lines 52 to 57, together
with network-level request exceptions. -/
def Retryable : AttemptResult → Prop
  | .resp s => s = 429 ∨ (500 ≤ s ∧ s ≤ 599)
  | .netErr => True

/-- Element j of the pandas series delta.where(delta greater than 0, 0),
where delta = df.close.diff(): the positive part of the j-th per-step
price change. Position 0 of diff is NaN in pandas, and Series.where
replaces every position where the condition fails with 0; NaN compares
False, so position 0 becomes 0, not NaN. -/
def gainTerm (closes : List ℚ) (j : Nat) : ℚ :=
  if j = 0 then 0
  else if 0 < closes.getD j 0 - closes.getD (j - 1) 0 then
    closes.getD j 0 - closes.getD (j - 1) 0
  else 0

/-- Element j of the pandas series -delta.where(delta less than 0, 0): the
magnitude of the negative part of the j-th per-step price change, with
position 0 mapped to 0 as in gainTerm. -/
def lossTerm (closes : List ℚ) (j : Nat) : ℚ :=
  if j = 0 then 0
  else if closes.getD j 0 - closes.getD (j - 1) 0 < 0 then
    -(closes.getD j 0 - closes.getD (j - 1) 0)
  else 0

/-- Value of Series.rolling(window=w).mean() at position i, for w ≤ i + 1
(earlier positions are NaN): the arithmetic mean of the w entries at
positions i - w + 1 through i. -/
def rollingMean (f : Nat → ℚ) (w : Nat) (i : Nat) : ℚ :=
  (∑ j in Finset.range w, f (i + 1 - w + j)) / w

/-- Value of the RSI_14 column at position i, for 13 ≤ i (earlier positions
are NaN because the rolling means are). The source computes
rs = gain / loss and 100 - (100 / (1 + rs)) in IEEE floating point. Both
rolling means are nonnegative, and the special values are made explicit:
when loss = 0 and gain is nonzero, gain / loss is an infinity and
100 - (100 / (1 + inf)) evaluates to exactly 100; when loss = 0 = gain,
0.0 / 0.0 is NaN, NaN propagates through the formula, and dropna later
discards the entry, modelled as none; otherwise the model uses the exact
rational value of the expression the float code computes. -/
def rsiAt (closes : List ℚ) (i : Nat) : Option ℚ :=
  if rollingMean (lossTerm closes) 14 i = 0 then
    if rollingMean (gainTerm closes) 14 i = 0 then none else some 100
  else
    some (100 - 100 / (1 + rollingMean (gainTerm closes) 14 i / rollingMean (lossTerm closes) 14 i))

/-- The SMA_20 column of line 142: NaN (none) before position 19, the
rolling 20-mean of the closes from position 19 on. -/
def smaSeries (closes : List ℚ) : List (Option ℚ) :=
  (List.range closes.length).map (fun i =>
    if 19 ≤ i then some (rollingMean (fun j => closes.getD j 0) 20 i) else none)

/-- The RSI_14 column of line 149: NaN (none) before position 13, rsiAt
from position 13 on. -/
def rsiSeries (closes : List ℚ) : List (Option ℚ) :=
  (List.range closes.length).map (fun i => if 13 ≤ i then rsiAt closes i else none)

/-- Series.dropna().iloc[-1]: the last non-NaN entry; none models the
IndexError that iloc[-1] raises when every entry is NaN. -/
def lastValid (l : List (Option ℚ)) : Option ℚ := l.reduceOption.getLast?

/-- The latest_sma value of line 152. -/
def latest_sma (closes : List ℚ) : Option ℚ := lastValid (smaSeries closes)

/-- The latest_rsi value of line 153. -/
def latest_rsi (closes : List ℚ) : Option ℚ := lastValid (rsiSeries closes)

/-- How fetch_market_data can fail: a propagated fetch_with_backoff
exception from either upstream call, the IndexError from iloc[-1] on an
empty dropna result, or the KeyError from price_data[crypto_id][usd]. The
except clause on lines 160 to 162 prints and re-raises, so every failure
propagates. -/
inductive MarketError where
  | clientError (e : FetchError)
  | indexError
  | keyError
deriving DecidableEq, Repr

/-- The dictionary fetch_market_data returns on lines 155 to 159. -/
structure Snapshot where
  current_price : ℚ
  latest_sma : ℚ
  latest_rsi : ℚ
deriving DecidableEq, Repr

/-- fetch_market_data (lines 116 to 162). history is the outcome of the
market_chart call (the closing prices extracted from the prices field) and
price the outcome of the simple/price call, with none standing for a body
in which price_data[crypto_id][usd] is missing. The indicator columns are
evaluated in source order: latest_sma (line 152) before latest_rsi
(line 153), both before the KeyError the return expression can raise. -/
def fetch_market_data (history : Except FetchError (List ℚ))
    (price : Except FetchError (Option ℚ)) : Except MarketError Snapshot :=
  match history with
  | .error e => .error (.clientError e)
  | .ok closes =>
    match price with
    | .error e => .error (.clientError e)
    | .ok priceVal =>
      match latest_sma closes with
      | none => .error .indexError
      | some s =>
        match latest_rsi closes with
        | none => .error .indexError
        | some r =>
          match priceVal with
          | none => .error .keyError
          | some p => .ok ⟨p, s, r⟩

/-- How call_gemini_api can fail: the ValueError for a missing or empty API
key, a propagated fetch_with_backoff exception, an uncontrolled Python
error raised while indexing the response, or the dedicated
Exception Invalid API response structure of line 109. -/
inductive CallError where
  | valueError
  | fetchError (e : FetchError)
  | pyError (e : PyError)
  | invalidStructure
deriving DecidableEq, Repr

/-- call_gemini_api (lines 71 to 111). The HTTP exchange is abstracted to
its outcome: fetchResult is what fetch_with_backoff followed by
response.json() produced (an exception, or the decoded JSON body). The
response is then taken apart exactly as on lines 105 to 111:
result.get with default [ {} ] then [0], .get content with default {},
.get parts with default [ {} ] then [0], and finally the membership test
on the key text, whose failure raises the dedicated exception. -/
def call_gemini_api (apiKey : Option String) (fetchResult : Except FetchError JVal) :
    Except CallError JVal :=
  if (apiKey.getD "").isEmpty then .error .valueError
  else
    match fetchResult with
    | .error e => .error (.fetchError e)
    | .ok result =>
      match pyGet result "candidates" (.arr [.obj []]) with
      | .error e => .error (.pyError e)
      | .ok candidates =>
        match pyIndex0 candidates with
        | .error e => .error (.pyError e)
        | .ok candidate =>
          match pyGet candidate "content" (.obj []) with
          | .error e => .error (.pyError e)
          | .ok content =>
            match pyGet content "parts" (.arr [.obj []]) with
            | .error e => .error (.pyError e)
            | .ok parts =>
              match pyIndex0 parts with
              | .error e => .error (.pyError e)
              | .ok content_part =>
                match pyContains content_part "text" with
                | .error e => .error (.pyError e)
                | .ok true => .ok content_part
                | .ok false => .error .invalidStructure

/-- fetch_news_sentiment (lines 164 to 179). callResult is the outcome of
the call_gemini_api call on line 174; the function then reads
response_part[ text ]. The try block catches every exception (the call
itself or the item access), prints a warning and returns the fixed
fallback string; on success it returns whatever the text field holds. -/
def fetch_news_sentiment (callResult : Except CallError JVal) : JVal :=
  match callResult with
  | .error _ => .str "News sentiment could not be retrieved."
  | .ok part =>
    match pyItem part "text" with
    | .ok v => v
    | .error _ => .str "News sentiment could not be retrieved."

/-- The exception json.loads raises on input that is not valid JSON. -/
inductive JsonError where
  | decodeError (msg : String)
deriving DecidableEq, Repr

/-- How get_ai_analysis can fail: with the exception of its inner
call_gemini_api call re-raised by the except Exception handler, with the
json.JSONDecodeError re-raised by its dedicated handler, or with an
uncontrolled Python error from the item access or from calling json.loads
on a non-string. -/
inductive AnalysisError where
  | callError (e : CallError)
  | jsonDecodeError (e : JsonError)
  | pyError (e : PyError)
deriving DecidableEq, Repr

/-- get_ai_analysis (lines 183 to 250). loads is the json.loads oracle
(what the library would return for each input string); callResult is the
outcome of the call_gemini_api call on line 240. The function reads
response_part[ text ] and parses it; a JSONDecodeError is re-raised by the
first except clause, every other exception by the second, so all failures
propagate with their kind intact. -/
def get_ai_analysis (loads : String → Except JsonError JVal)
    (callResult : Except CallError JVal) : Except AnalysisError JVal :=
  match callResult with
  | .error e => .error (.callError e)
  | .ok part =>
    match pyItem part "text" with
    | .error e => .error (.pyError e)
    | .ok (.str t) =>
      match loads t with
      | .error e => .error (.jsonDecodeError e)
      | .ok v => .ok v
    | .ok _ => .error (.pyError .typeError)

/-- The console output of run_analysis, at the granularity the claims need:
the Live Technical Data section, the AI Analyst Report section, and the
formatted top-level error message. -/
inductive RunEvent where
  | techSection
  | reportSection
  | errorMsg
deriving DecidableEq, Repr

/-- run_analysis (lines 254 to 302) after the input prompt has resolved a
coin id: fetch_market_data runs first, then fetch_news_sentiment (which
never raises), then get_ai_analysis, and only then are the two report
sections printed; any exception jumps to the top-level handler, which
prints the formatted error instead. The sentiment value is embedded into
the analysis prompt, which this model does not inspect. Accessing a
missing report key while printing raises after the technical section has
been printed. -/
def run_analysis (tech : Except MarketError Snapshot)
    (newsCall : Except CallError JVal) (analysisCall : Except CallError JVal)
    (loads : String → Except JsonError JVal) : List RunEvent :=
  match tech with
  | .error _ => [.errorMsg]
  | .ok _ =>
    let _sentiment := fetch_news_sentiment newsCall
    match get_ai_analysis loads analysisCall with
    | .error _ => [.errorMsg]
    | .ok report =>
      match pyItem report "analysis", pyItem report "recommendation",
            pyItem report "confidence" with
      | .ok _, .ok _, .ok _ => [.techSection, .reportSection]
      | _, _, _ => [.techSection, .errorMsg]

example : fetch_with_backoff "u" "GET" none [.resp 404, .resp 404, .resp 404] 2 =
    ⟨[.get "u", .get "u", .get "u"], [2, 4], .error (.httpError 404)⟩ := rfl

example : fetch_with_backoff "u" "GET" none [.netErr, .resp 429, .resp 500, .netErr] 2 =
    ⟨[.get "u", .get "u", .get "u", .get "u"], [2, 4, 8], .error .netError⟩ := rfl

example : fetch_with_backoff "u" "post" none [.resp 200] 2 =
    ⟨[.post "u" none], [], .ok 200⟩ := rfl

example : fetch_with_backoff "u" "GET" none [.resp 500, .resp 502, .resp 429] 2 =
    ⟨[.get "u", .get "u", .get "u"], [2, 4, 8], .error .exhausted⟩ := rfl

example :
    latest_sma [1, 2, 3, 4, 5, 6, 7, 8, 9, 10, 11, 12, 13, 14, 15, 16, 17, 18, 19, 20] =
      some (21 / 2) := by
  simp [latest_sma, smaSeries, lastValid, List.range_succ, List.reduceOption,
    rollingMean, Finset.sum_range_succ]
  norm_num

example :
    latest_rsi [15, 14, 13, 12, 11, 10, 9, 8, 7, 6, 5, 4, 3, 2, 1] = some 0 := by
  simp [latest_rsi, rsiSeries, lastValid, List.range_succ, List.reduceOption,
    rsiAt, rollingMean, Finset.sum_range_succ, gainTerm, lossTerm]
  norm_num

example :
    latest_rsi [1, 2, 3, 4, 5, 6, 7, 8, 9, 10, 11, 12, 13, 14, 15] = some 100 := by
  simp [latest_rsi, rsiSeries, lastValid, List.range_succ, List.reduceOption,
    rsiAt, rollingMean, Finset.sum_range_succ, gainTerm, lossTerm]
  norm_num

example :
    latest_rsi [1, 3, 2, 4, 3, 5, 4, 6, 5, 7, 6, 8, 7, 9, 8] = some (200 / 3) := by
  simp [latest_rsi, rsiSeries, lastValid, List.range_succ, List.reduceOption,
    rsiAt, rollingMean, Finset.sum_range_succ, gainTerm, lossTerm]
  norm_num

example : fetch_market_data (.ok [1, 2, 3]) (.ok (some 5)) = .error .indexError := rfl

example : fetch_market_data (.error .netError) (.ok (some 5)) =
    .error (.clientError .netError) := rfl

example : call_gemini_api (some "k") (.ok (.obj [("candidates", .arr [])])) =
    .error (.pyError .indexError) := rfl

example : call_gemini_api (some "k") (.ok (.obj [])) = .error .invalidStructure := rfl

example :
    call_gemini_api (some "k")
      (.ok (.obj [("candidates",
        .arr [.obj [("content", .obj [("parts", .arr [.obj [("text", .str "hi")]])])]])])) =
    .ok (.obj [("text", .str "hi")]) := rfl

example : fetch_news_sentiment (.error .valueError) =
    .str "News sentiment could not be retrieved." := rfl

/-! Helper lemmas about the list and series operations. -/

theorem lastValid_append_some (l : List (Option ℚ)) (v : ℚ) :
    lastValid (l ++ [some v]) = some v := by
  simp [lastValid, List.reduceOption_append, List.reduceOption]

theorem lastValid_mapRange (f : Nat → Option ℚ) (m : Nat) (v : ℚ) (hv : f m = some v) :
    lastValid ((List.range (m + 1)).map f) = some v := by
  rw [List.range_succ, List.map_append, List.map_singleton, hv]
  exact lastValid_append_some _ v

theorem reduceOption_eq_nil (l : List (Option ℚ)) (h : ∀ x ∈ l, x = none) :
    l.reduceOption = [] := by
  induction l with
  | nil => rfl
  | cons a t ih =>
    have ha := h a (by simp)
    subst ha
    simpa using ih (fun x hx => h x (by simp [hx]))

theorem lastValid_eq_none (l : List (Option ℚ)) (h : ∀ x ∈ l, x = none) :
    lastValid l = none := by
  simp [lastValid, reduceOption_eq_nil l h]

theorem list_sum_getD (l : List ℚ) :
    l.sum = ∑ j in Finset.range l.length, l.getD j 0 := by
  induction l with
  | nil => simp
  | cons a t ih =>
    rw [List.sum_cons, List.length_cons, Finset.sum_range_succ', ih]
    simp [add_comm]

theorem drop_sum_getD (l : List ℚ) (k : Nat) :
    (l.drop k).sum = ∑ j in Finset.range (l.length - k), l.getD (k + j) 0 := by
  rw [list_sum_getD (l.drop k), List.length_drop]
  apply Finset.sum_congr rfl
  intro j _
  simp [List.getD_eq_getElem?_getD, List.getElem?_drop]

theorem rollingMean14_shift (f : Nat → ℚ) (m : Nat) :
    rollingMean f 14 (m + 14) = (∑ j in Finset.range 14, f (m + 1 + j)) / 14 := by
  unfold rollingMean
  simp only [show ∀ j, m + 14 + 1 - 14 + j = m + 1 + j from fun j => by omega]
  norm_num

theorem rollingMean20_shift (f : Nat → ℚ) (m : Nat) :
    rollingMean f 20 (m + 19) = (∑ j in Finset.range 20, f (m + j)) / 20 := by
  unfold rollingMean
  simp only [show ∀ j, m + 19 + 1 - 20 + j = m + j from fun j => by omega]
  norm_num

theorem gainTerm_succ (closes : List ℚ) (t : Nat) :
    gainTerm closes (t + 1) =
      if 0 < closes.getD (t + 1) 0 - closes.getD t 0 then
        closes.getD (t + 1) 0 - closes.getD t 0
      else 0 := by
  simp [gainTerm]

theorem lossTerm_succ (closes : List ℚ) (t : Nat) :
    lossTerm closes (t + 1) =
      if closes.getD (t + 1) 0 - closes.getD t 0 < 0 then
        -(closes.getD (t + 1) 0 - closes.getD t 0)
      else 0 := by
  simp [lossTerm]

theorem gainTerm_succ_eq_max (closes : List ℚ) (t : Nat) :
    gainTerm closes (t + 1) = max (closes.getD (t + 1) 0 - closes.getD t 0) 0 := by
  rw [gainTerm_succ]
  split_ifs with h
  · exact (max_eq_left h.le).symm
  · exact (max_eq_right (not_lt.mp h)).symm

theorem lossTerm_succ_eq_max (closes : List ℚ) (t : Nat) :
    lossTerm closes (t + 1) = max (-(closes.getD (t + 1) 0 - closes.getD t 0)) 0 := by
  rw [lossTerm_succ]
  split_ifs with h
  · exact (max_eq_left (by linarith)).symm
  · exact (max_eq_right (by simpa using not_lt.mp h)).symm

/-! Helper lemmas about the retry loop. -/

theorem fetchGo_sleeps_getD (url method : String) (p : Option JVal) :
    ∀ (l : List AttemptResult) (d k : Nat),
      k < (fetchGo url method p d l).sleeps.length →
      (fetchGo url method p d l).sleeps.getD k 0 = d * 2 ^ k := by
  intro l
  induction l with
  | nil => intro d k h; simp [fetchGo] at h
  | cons o rest ih =>
    intro d k h
    have step : ∀ s : List Nat,
        s = (fetchGo url method p (d * 2) rest).sleeps →
        k < (d :: s).length → (d :: s).getD k 0 = d * 2 ^ k := by
      intro s hs hk
      cases k with
      | zero => simp
      | succ k =>
        have hk2 : k < (fetchGo url method p (d * 2) rest).sleeps.length := by
          rw [← hs]; simpa using hk
        rw [List.getD_cons_succ, hs, ih (d * 2) k hk2, pow_succ]
        ring
    cases o with
    | netErr =>
      cases rest with
      | nil => simp [fetchGo] at h
      | cons o2 rest2 =>
        simp only [fetchGo] at h ⊢
        exact step _ rfl h
    | resp s =>
      by_cases h1 : s = 429 ∨ (500 ≤ s ∧ s ≤ 599)
      · simp only [fetchGo, if_pos h1] at h ⊢
        exact step _ rfl h
      · by_cases h2 : 400 ≤ s ∧ s ≤ 599
        · cases rest with
          | nil => simp [fetchGo, if_neg h1, if_pos h2] at h
          | cons o2 rest2 =>
            simp only [fetchGo, if_neg h1, if_pos h2] at h ⊢
            exact step _ rfl h
        · simp [fetchGo, if_neg h1, if_neg h2] at h

theorem fetchGo_requests_mem (url method : String) (p : Option JVal) :
    ∀ (l : List AttemptResult) (d : Nat),
      ∀ r ∈ (fetchGo url method p d l).requests, r = issueRequest url method p := by
  intro l
  induction l with
  | nil => intro d r hr; simp [fetchGo] at hr
  | cons o rest ih =>
    intro d r hr
    cases o with
    | netErr =>
      cases rest with
      | nil =>
        simp only [fetchGo, List.mem_singleton] at hr
        exact hr
      | cons o2 rest2 =>
        simp only [fetchGo, List.mem_cons] at hr
        rcases hr with h | h
        · exact h
        · exact ih _ r h
    | resp s =>
      by_cases h1 : s = 429 ∨ (500 ≤ s ∧ s ≤ 599)
      · simp only [fetchGo, if_pos h1, List.mem_cons] at hr
        rcases hr with h | h
        · exact h
        · exact ih _ r h
      · by_cases h2 : 400 ≤ s ∧ s ≤ 599
        · cases rest with
          | nil =>
            simp only [fetchGo, if_neg h1, if_pos h2, List.mem_singleton] at hr
            exact hr
          | cons o2 rest2 =>
            simp only [fetchGo, if_neg h1, if_pos h2, List.mem_cons] at hr
            rcases hr with h | h
            · exact h
            · exact ih _ r h
        · simp only [fetchGo, if_neg h1, if_neg h2, List.mem_singleton] at hr
          exact hr

theorem fetchGo_requests_ne_nil (url method : String) (p : Option JVal)
    (o : AttemptResult) (rest : List AttemptResult) (d : Nat) :
    (fetchGo url method p d (o :: rest)).requests ≠ [] := by
  cases o with
  | netErr => cases rest <;> simp [fetchGo]
  | resp s =>
    by_cases h1 : s = 429 ∨ (500 ≤ s ∧ s ≤ 599)
    · simp [fetchGo, if_pos h1]
    · by_cases h2 : 400 ≤ s ∧ s ≤ 599
      · cases rest <;> simp [fetchGo, if_neg h1, if_pos h2]
      · simp [fetchGo, if_neg h1, if_neg h2]

theorem fetchGo_sleeps_length (url method : String) (p : Option JVal) :
    ∀ (l : List AttemptResult) (d : Nat), (∀ o ∈ l, Retryable o) →
      l.length - 1 ≤ (fetchGo url method p d l).sleeps.length := by
  intro l
  induction l with
  | nil => intro d _; simp [fetchGo]
  | cons o rest ih =>
    intro d hall
    have hrest : ∀ o2 ∈ rest, Retryable o2 := fun o2 h2 => hall o2 (by simp [h2])
    have ho : Retryable o := hall o (by simp)
    have htail := ih (d * 2) hrest
    cases o with
    | netErr =>
      cases rest with
      | nil => simp [fetchGo]
      | cons o2 rest2 =>
        simp only [fetchGo, List.length_cons] at htail ⊢
        omega
    | resp s =>
      have h1 : s = 429 ∨ (500 ≤ s ∧ s ≤ 599) := ho
      simp only [fetchGo, if_pos h1, List.length_cons] at htail ⊢
      omega

/-! The ten claims. -/

/-- C1: the claim states that a response whose status is neither 2xx, nor
429, nor 5xx (for example a single 404) makes fetch_with_backoff raise
immediately, with no sleep and no further request attempt. The code does
the opposite: raise_for_status raises an HTTPError, HTTPError is a
subclass of requests.exceptions.RequestException, and the except clause
catches it and retries. With the default retries = 3 and delay = 2, an
environment that answers 404 to every attempt sees two sleeps (2 then 4
seconds) and three issued requests before the HTTPError finally
propagates from the last attempt. -/
theorem claim_C1_single_404_is_retried :
    (fetch_with_backoff "u" "GET" none [.resp 404, .resp 404, .resp 404] 2).sleeps = [2, 4]
  ∧ (fetch_with_backoff "u" "GET" none [.resp 404, .resp 404, .resp 404] 2).requests.length = 3
  ∧ (fetch_with_backoff "u" "GET" none [.resp 404, .resp 404, .resp 404] 2).result =
      .error (.httpError 404) :=
  ⟨rfl, rfl, rfl⟩

/-- C5: when every attempt fails retryably (status 429 or 5xx, or a
network-level exception), the sleep before the k-th retry (index k - 1 in
the sleeps list, stated below with k zero-based) is exactly
initialDelay * 2 ^ k: the first retry waits the initial delay and every
subsequent wait doubles the previous one. At least length - 1 sleeps
occur, so each of the first length - 1 retryable failures does trigger a
retried attempt. -/
theorem claim_C5_backoff_doubling (url method : String) (payload : Option JVal)
    (outcomes : List AttemptResult) (delay : Nat)
    (hretry : ∀ o ∈ outcomes, Retryable o) :
    (∀ k, k < (fetch_with_backoff url method payload outcomes delay).sleeps.length →
      (fetch_with_backoff url method payload outcomes delay).sleeps.getD k 0 = delay * 2 ^ k)
  ∧ outcomes.length - 1 ≤ (fetch_with_backoff url method payload outcomes delay).sleeps.length :=
  ⟨fun k hk => fetchGo_sleeps_getD url method payload outcomes delay k hk,
   fetchGo_sleeps_length url method payload outcomes delay hretry⟩

theorem claim_C5_backoff_doubling_witness :
    (∀ o ∈ ([.netErr, .resp 429, .resp 500, .netErr] : List AttemptResult), Retryable o)
  ∧ (2 : Nat) <
      (fetch_with_backoff "u" "GET" none [.netErr, .resp 429, .resp 500, .netErr] 2).sleeps.length
  ∧ (fetch_with_backoff "u" "GET" none
      [.netErr, .resp 429, .resp 500, .netErr] 2).sleeps.getD 2 0 = 2 * 2 ^ 2 := by
  refine ⟨?_, by decide, ?_⟩
  · intro o ho
    fin_cases ho <;> simp [Retryable]
  · exact (claim_C5_backoff_doubling "u" "GET" none [.netErr, .resp 429, .resp 500, .netErr] 2
      (by intro o ho; fin_cases ho <;> simp [Retryable])).1 2 (by decide)

/-- C9: every method string whose uppercasing is not POST issues a GET
request on every attempt (including strings naming other HTTP methods such
as DELETE or PUT); a method string whose uppercasing is POST issues a POST
carrying the JSON payload on every attempt; and whenever there is at least
one loop iteration, at least one request is issued. -/
theorem claim_C9_method_dispatch (url method : String) (payload : Option JVal)
    (outcomes : List AttemptResult) (delay : Nat) :
    (pyUpper method ≠ "POST" →
      ∀ r ∈ (fetch_with_backoff url method payload outcomes delay).requests, r = .get url)
  ∧ (pyUpper method = "POST" →
      ∀ r ∈ (fetch_with_backoff url method payload outcomes delay).requests,
        r = .post url payload)
  ∧ (outcomes ≠ [] → (fetch_with_backoff url method payload outcomes delay).requests ≠ []) := by
  refine ⟨?_, ?_, ?_⟩
  · intro hne r hr
    have h := fetchGo_requests_mem url method payload outcomes delay r hr
    rwa [issueRequest, if_neg hne] at h
  · intro heq r hr
    have h := fetchGo_requests_mem url method payload outcomes delay r hr
    rwa [issueRequest, if_pos heq] at h
  · intro hne
    cases outcomes with
    | nil => exact absurd rfl hne
    | cons o rest => exact fetchGo_requests_ne_nil url method payload o rest delay

theorem claim_C9_method_dispatch_witness :
    pyUpper "DELETE" ≠ "POST"
  ∧ HttpRequest.get "u" ∈ (fetch_with_backoff "u" "DELETE" none [.resp 200] 2).requests
  ∧ (∀ r ∈ (fetch_with_backoff "u" "DELETE" none [.resp 200] 2).requests, r = .get "u") := by
  refine ⟨by decide, ?_, ?_⟩
  · rw [show (fetch_with_backoff "u" "DELETE" none [.resp 200] 2).requests = [.get "u"]
      from rfl]
    exact List.mem_singleton.mpr rfl
  · exact (claim_C9_method_dispatch "u" "DELETE" none [.resp 200] 2).1 (by decide)

/-- C3 counterexample: the claim names the fixed fallback string
sentiment unavailable, but at a failing input fetch_news_sentiment
returns the string News sentiment could not be retrieved. instead. -/
theorem claim_C3_fallback_counterexample :
    fetch_news_sentiment (.error (.fetchError .netError)) ≠ .str "sentiment unavailable" := by
  intro h
  rw [show fetch_news_sentiment (.error (.fetchError .netError)) =
    .str "News sentiment could not be retrieved." from rfl] at h
  injection h with h2
  exact absurd h2 (by decide)

/-- C3 as amended: for every failure (any exception) inside the
news-sentiment fetch, whether the inner call_gemini_api call raised or the
response_part text access raised, fetch_news_sentiment does not propagate
the error and returns the fixed fallback string News sentiment could not
be retrieved., so the caller always receives a value and never an
exception from this call. -/
theorem claim_C3_fallback_theorem :
    (∀ e : CallError, fetch_news_sentiment (.error e) =
      .str "News sentiment could not be retrieved.")
  ∧ (∀ (part : JVal) (pe : PyError), pyItem part "text" = .error pe →
      fetch_news_sentiment (.ok part) = .str "News sentiment could not be retrieved.") := by
  constructor
  · intro e; rfl
  · intro part pe h
    simp [fetch_news_sentiment, h]

theorem claim_C3_fallback_witness :
    pyItem (JVal.obj []) "text" = .error .keyError
  ∧ fetch_news_sentiment (.ok (JVal.obj [])) =
      .str "News sentiment could not be retrieved." :=
  ⟨rfl, claim_C3_fallback_theorem.2 (JVal.obj []) .keyError rfl⟩

/-- C7: when the text field of the model response is not valid JSON,
get_ai_analysis fails with the JSONDecodeError kind, which is distinct
from every error kind of the HTTP layer (in particular from every
propagated call_gemini_api failure, the only retryable family), and the
run prints neither the technical-data section nor the analyst-report
section, only the formatted top-level error. json.loads is evaluated once,
outside the retry loop of fetch_with_backoff, so the failure is never
retried. -/
theorem claim_C7_invalid_json (loads : String → Except JsonError JVal) (t : String)
    (e : JsonError) (snap : Snapshot) (newsCall : Except CallError JVal)
    (h : loads t = .error e) :
    get_ai_analysis loads (.ok (.obj [("text", .str t)])) = .error (.jsonDecodeError e)
  ∧ (∀ ce : CallError,
      (Except.error (AnalysisError.jsonDecodeError e) : Except AnalysisError JVal) ≠
        .error (.callError ce))
  ∧ run_analysis (.ok snap) newsCall (.ok (.obj [("text", .str t)])) loads = [.errorMsg] := by
  refine ⟨?_, ?_, ?_⟩
  · simp [get_ai_analysis, pyItem, List.lookup, h]
  · intro ce hne
    simp at hne
  · simp [run_analysis, get_ai_analysis, pyItem, List.lookup, h]

theorem claim_C7_invalid_json_witness :
    ((fun _ : String => (Except.error (JsonError.decodeError "bad") : Except JsonError JVal))
      "not json" = .error (.decodeError "bad"))
  ∧ run_analysis (.ok ⟨1, 2, 3⟩) (.error .valueError) (.ok (.obj [("text", .str "not json")]))
      (fun _ => .error (.decodeError "bad")) = [.errorMsg] :=
  ⟨rfl, (claim_C7_invalid_json (fun _ => .error (.decodeError "bad")) "not json"
    (.decodeError "bad") ⟨1, 2, 3⟩ (.error .valueError) rfl).2.2⟩

/-- C10 counterexample: the claim states that every shape in which the
text field is unreachable raises the dedicated invalid-response-structure
exception, including a present-but-empty candidates or parts list; but on
a response whose candidates key holds an empty list, line 105 indexes []
with [0] and raises an uncontrolled IndexError instead. -/
theorem claim_C10_empty_candidates_counterexample :
    call_gemini_api (some "k") (.ok (.obj [("candidates", .arr [])])) =
      .error (.pyError .indexError)
  ∧ (Except.error (CallError.pyError .indexError) : Except CallError JVal) ≠
      .error .invalidStructure := by
  constructor
  · rfl
  · intro h
    injection h with h2
    exact absurd h2 (by decide)

/-- C10 as amended: when every level that the extraction consults is a
JSON object and the required key is absent (candidates absent on the
response, content absent on the first candidate, parts absent on the
content, or text absent on the first part), call_gemini_api raises its
dedicated invalid-response-structure exception rather than an uncontrolled
key or index error; but a present-but-empty candidates or parts list
raises an uncontrolled IndexError instead. -/
theorem claim_C10_missing_keys_theorem :
    (∀ fields : List (String × JVal), fields.lookup "candidates" = none →
      call_gemini_api (some "k") (.ok (.obj fields)) = .error .invalidStructure)
  ∧ (∀ (cf : List (String × JVal)) (rest : List JVal), cf.lookup "content" = none →
      call_gemini_api (some "k") (.ok (.obj [("candidates", .arr (.obj cf :: rest))])) =
        .error .invalidStructure)
  ∧ (∀ ctf : List (String × JVal), ctf.lookup "parts" = none →
      call_gemini_api (some "k")
        (.ok (.obj [("candidates", .arr [.obj [("content", .obj ctf)]])])) =
        .error .invalidStructure)
  ∧ (∀ (pf : List (String × JVal)) (prest : List JVal), pf.lookup "text" = none →
      call_gemini_api (some "k")
        (.ok (.obj [("candidates",
          .arr [.obj [("content", .obj [("parts", .arr (.obj pf :: prest))])]])])) =
        .error .invalidStructure)
  ∧ call_gemini_api (some "k")
      (.ok (.obj [("candidates",
        .arr [.obj [("content", .obj [("parts", .arr [])])]])])) =
      .error (.pyError .indexError) := by
  refine ⟨?_, ?_, ?_, ?_, rfl⟩
  · intro fields h
    simp [call_gemini_api, pyGet, pyIndex0, pyContains, h, List.lookup]
    decide
  · intro cf rest h
    simp [call_gemini_api, pyGet, pyIndex0, pyContains, h, List.lookup]
    decide
  · intro ctf h
    simp [call_gemini_api, pyGet, pyIndex0, pyContains, h, List.lookup]
    decide
  · intro pf prest h
    simp [call_gemini_api, pyGet, pyIndex0, pyContains, h, List.lookup]
    decide

theorem claim_C10_missing_keys_witness :
    (([] : List (String × JVal)).lookup "candidates" = none)
  ∧ call_gemini_api (some "k") (.ok (.obj [])) = .error .invalidStructure :=
  ⟨rfl, claim_C10_missing_keys_theorem.1 [] rfl⟩

/-- The arithmetic mean of the last w closes of the series, stated the way
the claim words it, for comparison with the value the code retains. -/
def meanOfLast (w : Nat) (closes : List ℚ) : ℚ :=
  (closes.drop (closes.length - w)).sum / w

/-- C4: for every closing-price series with at least 20 points, the
moving-average value retained by fetch_market_data (the last defined entry
of the rolling 20-mean column) equals the arithmetic mean of the last 20
closes. -/
theorem claim_C4_sma_mean_of_last_20 (closes : List ℚ) (h : 20 ≤ closes.length) :
    latest_sma closes = some (meanOfLast 20 closes) := by
  obtain ⟨m, hm⟩ : ∃ m, closes.length = m + 20 := ⟨closes.length - 20, by omega⟩
  have hlen : closes.length = (m + 19) + 1 := by omega
  unfold latest_sma smaSeries
  rw [hlen]
  apply lastValid_mapRange
  show (if 19 ≤ m + 19 then some (rollingMean (fun j => closes.getD j 0) 20 (m + 19)) else none)
    = some (meanOfLast 20 closes)
  rw [if_pos (by omega : (19 : Nat) ≤ m + 19)]
  congr 1
  rw [rollingMean20_shift]
  unfold meanOfLast
  rw [show closes.length - 20 = m from by omega, drop_sum_getD,
    show closes.length - m = 20 from by omega]
  norm_num

theorem claim_C4_sma_mean_of_last_20_witness :
    (20 : Nat) ≤
      ([1, 2, 3, 4, 5, 6, 7, 8, 9, 10, 11, 12, 13, 14, 15, 16, 17, 18, 19, 20] : List ℚ).length
  ∧ latest_sma [1, 2, 3, 4, 5, 6, 7, 8, 9, 10, 11, 12, 13, 14, 15, 16, 17, 18, 19, 20] =
      some (21 / 2) := by
  constructor
  · norm_num
  · refine (claim_C4_sma_mean_of_last_20
      [1, 2, 3, 4, 5, 6, 7, 8, 9, 10, 11, 12, 13, 14, 15, 16, 17, 18, 19, 20]
      (by norm_num)).trans ?_
    norm_num [meanOfLast]

/-- C8: fetch_market_data fails whenever the price history has fewer than
20 points (the moving-average column is entirely undefined, so iloc[-1]
raises) and in particular whenever it has fewer than 15 points; and
whenever either upstream call fails, as it does for an unrecognized asset
id, the client error is propagated unchanged inside the raised failure. -/
theorem claim_C8_failure_conditions :
    (∀ (closes : List ℚ) (price : Except FetchError (Option ℚ)), closes.length < 20 →
      ∃ err : MarketError, fetch_market_data (.ok closes) price = .error err)
  ∧ (∀ (closes : List ℚ) (price : Except FetchError (Option ℚ)), closes.length < 15 →
      ∃ err : MarketError, fetch_market_data (.ok closes) price = .error err)
  ∧ (∀ (e : FetchError) (price : Except FetchError (Option ℚ)),
      fetch_market_data (.error e) price = .error (.clientError e))
  ∧ (∀ (closes : List ℚ) (e : FetchError),
      fetch_market_data (.ok closes) (.error e) = .error (.clientError e)) := by
  have hsma : ∀ closes : List ℚ, closes.length < 20 → latest_sma closes = none := by
    intro closes h
    apply lastValid_eq_none
    intro x hx
    unfold smaSeries at hx
    rw [List.mem_map] at hx
    obtain ⟨i, hi, hfi⟩ := hx
    rw [List.mem_range] at hi
    rw [← hfi, if_neg (by omega)]
  have hfail : ∀ (closes : List ℚ) (price : Except FetchError (Option ℚ)),
      closes.length < 20 →
      ∃ err : MarketError, fetch_market_data (.ok closes) price = .error err := by
    intro closes price h
    cases price with
    | error e => exact ⟨.clientError e, rfl⟩
    | ok v =>
      refine ⟨.indexError, ?_⟩
      simp [fetch_market_data, hsma closes h]
  exact ⟨hfail, fun closes price h => hfail closes price (by omega),
    fun e price => rfl, fun closes e => rfl⟩

theorem claim_C8_failure_conditions_witness :
    (([1] : List ℚ).length < 20)
  ∧ (∃ err : MarketError, fetch_market_data (.ok [1]) (.ok (some 5)) = .error err)
  ∧ fetch_market_data (.error (.httpError 404)) (.ok (some 5)) =
      .error (.clientError (.httpError 404)) :=
  ⟨by norm_num, claim_C8_failure_conditions.1 [1] (.ok (some 5)) (by norm_num),
    claim_C8_failure_conditions.2.2.1 (.httpError 404) (.ok (some 5))⟩

/-- C2: for every strictly decreasing closing-price series of at least 15
points, the 14-period relative-strength value retained by
fetch_market_data equals 0; for every strictly increasing such series the
average loss of the final window is zero, the ratio gain over loss is an
infinity, and the retained value saturates at exactly 100. -/
theorem claim_C2_rsi_boundary (closes : List ℚ) (h15 : 15 ≤ closes.length) :
    ((∀ j, j + 1 < closes.length → closes.getD (j + 1) 0 < closes.getD j 0) →
      latest_rsi closes = some 0)
  ∧ ((∀ j, j + 1 < closes.length → closes.getD j 0 < closes.getD (j + 1) 0) →
      latest_rsi closes = some 100) := by
  obtain ⟨m, hm⟩ : ∃ m, closes.length = m + 15 := ⟨closes.length - 15, by omega⟩
  have hlen : closes.length = (m + 14) + 1 := by omega
  constructor
  · intro hdec
    have hg : rollingMean (gainTerm closes) 14 (m + 14) = 0 := by
      rw [rollingMean14_shift]
      have hz : ∀ j ∈ Finset.range 14, gainTerm closes (m + 1 + j) = 0 := by
        intro j hj
        have hj14 : j < 14 := Finset.mem_range.mp hj
        have hlt : closes.getD (m + j + 1) 0 < closes.getD (m + j) 0 :=
          hdec (m + j) (by omega)
        rw [show m + 1 + j = m + j + 1 from by omega, gainTerm_succ]
        rw [if_neg (not_lt.mpr (by linarith))]
      rw [Finset.sum_eq_zero hz, zero_div]
    have hlpos : 0 < rollingMean (lossTerm closes) 14 (m + 14) := by
      rw [rollingMean14_shift]
      apply div_pos
      · apply Finset.sum_pos
        · intro j hj
          have hj14 : j < 14 := Finset.mem_range.mp hj
          have hlt : closes.getD (m + j + 1) 0 < closes.getD (m + j) 0 :=
            hdec (m + j) (by omega)
          rw [show m + 1 + j = m + j + 1 from by omega, lossTerm_succ]
          rw [if_pos (by linarith)]
          linarith
        · exact ⟨0, Finset.mem_range.mpr (by norm_num)⟩
      · norm_num
    have hr : rsiAt closes (m + 14) = some 0 := by
      unfold rsiAt
      rw [if_neg hlpos.ne', hg]
      norm_num
    unfold latest_rsi rsiSeries
    rw [hlen]
    apply lastValid_mapRange
    show (if 13 ≤ m + 14 then rsiAt closes (m + 14) else none) = some 0
    rw [if_pos (by omega : (13 : Nat) ≤ m + 14)]
    exact hr
  · intro hinc
    have hl0 : rollingMean (lossTerm closes) 14 (m + 14) = 0 := by
      rw [rollingMean14_shift]
      have hz : ∀ j ∈ Finset.range 14, lossTerm closes (m + 1 + j) = 0 := by
        intro j hj
        have hj14 : j < 14 := Finset.mem_range.mp hj
        have hlt : closes.getD (m + j) 0 < closes.getD (m + j + 1) 0 :=
          hinc (m + j) (by omega)
        rw [show m + 1 + j = m + j + 1 from by omega, lossTerm_succ]
        rw [if_neg (not_lt.mpr (by linarith))]
      rw [Finset.sum_eq_zero hz, zero_div]
    have hgpos : 0 < rollingMean (gainTerm closes) 14 (m + 14) := by
      rw [rollingMean14_shift]
      apply div_pos
      · apply Finset.sum_pos
        · intro j hj
          have hj14 : j < 14 := Finset.mem_range.mp hj
          have hlt : closes.getD (m + j) 0 < closes.getD (m + j + 1) 0 :=
            hinc (m + j) (by omega)
          rw [show m + 1 + j = m + j + 1 from by omega, gainTerm_succ]
          rw [if_pos (by linarith)]
          linarith
        · exact ⟨0, Finset.mem_range.mpr (by norm_num)⟩
      · norm_num
    have hr : rsiAt closes (m + 14) = some 100 := by
      unfold rsiAt
      rw [if_pos hl0, if_neg hgpos.ne']
    unfold latest_rsi rsiSeries
    rw [hlen]
    apply lastValid_mapRange
    show (if 13 ≤ m + 14 then rsiAt closes (m + 14) else none) = some 100
    rw [if_pos (by omega : (13 : Nat) ≤ m + 14)]
    exact hr

theorem claim_C2_rsi_boundary_witness :
    latest_rsi [15, 14, 13, 12, 11, 10, 9, 8, 7, 6, 5, 4, 3, 2, 1] = some 0
  ∧ latest_rsi [1, 2, 3, 4, 5, 6, 7, 8, 9, 10, 11, 12, 13, 14, 15] = some 100 := by
  constructor
  · refine (claim_C2_rsi_boundary
      [15, 14, 13, 12, 11, 10, 9, 8, 7, 6, 5, 4, 3, 2, 1] (by norm_num)).1 ?_
    intro j hj
    simp only [List.length_cons, List.length_nil] at hj
    have hj14 : j < 14 := by omega
    interval_cases j <;> norm_num
  · refine (claim_C2_rsi_boundary
      [1, 2, 3, 4, 5, 6, 7, 8, 9, 10, 11, 12, 13, 14, 15] (by norm_num)).2 ?_
    intro j hj
    simp only [List.length_cons, List.length_nil] at hj
    have hj14 : j < 14 := by omega
    interval_cases j <;> norm_num

/-- The relative-strength numerator stated the way the claim words it: the
average of the positive per-step deltas over the trailing 14 steps of the
series. -/
def specAvgGain (closes : List ℚ) : ℚ :=
  (∑ k in Finset.range 14,
    max (closes.getD (closes.length - 14 + k) 0 - closes.getD (closes.length - 15 + k) 0) 0) / 14

/-- The relative-strength denominator stated the way the claim words it:
the average of the magnitudes of the negative per-step deltas over the
trailing 14 steps of the series. -/
def specAvgLoss (closes : List ℚ) : ℚ :=
  (∑ k in Finset.range 14,
    max (-(closes.getD (closes.length - 14 + k) 0 - closes.getD (closes.length - 15 + k) 0)) 0) / 14

/-- C6: for every closing-price series with at least 15 points whose final
trailing window has a nonzero average loss (so the ratio rs is defined),
the relative-strength value retained by fetch_market_data is
100 - 100 / (1 + rs) with rs the ratio of the trailing-14-step average of
positive per-step deltas to the trailing-14-step average of magnitudes of
negative per-step deltas, both stated directly from the claim wording; the
final entry of the column is then defined, so it is the most recent
defined value that dropna().iloc[-1] retains. -/
theorem claim_C6_rsi_formula (closes : List ℚ) (h15 : 15 ≤ closes.length)
    (hl : specAvgLoss closes ≠ 0) :
    latest_rsi closes = some (100 - 100 / (1 + specAvgGain closes / specAvgLoss closes)) := by
  obtain ⟨m, hm⟩ : ∃ m, closes.length = m + 15 := ⟨closes.length - 15, by omega⟩
  have hlen : closes.length = (m + 14) + 1 := by omega
  have hg : rollingMean (gainTerm closes) 14 (m + 14) = specAvgGain closes := by
    rw [rollingMean14_shift]
    unfold specAvgGain
    congr 1
    apply Finset.sum_congr rfl
    intro j hj
    have e1 : closes.length - 14 + j = m + j + 1 := by omega
    have e2 : closes.length - 15 + j = m + j := by omega
    have e3 : m + 1 + j = m + j + 1 := by omega
    rw [e1, e2, e3, gainTerm_succ_eq_max]
  have hlo : rollingMean (lossTerm closes) 14 (m + 14) = specAvgLoss closes := by
    rw [rollingMean14_shift]
    unfold specAvgLoss
    congr 1
    apply Finset.sum_congr rfl
    intro j hj
    have e1 : closes.length - 14 + j = m + j + 1 := by omega
    have e2 : closes.length - 15 + j = m + j := by omega
    have e3 : m + 1 + j = m + j + 1 := by omega
    rw [e1, e2, e3, lossTerm_succ_eq_max]
  have hlne : rollingMean (lossTerm closes) 14 (m + 14) ≠ 0 := by
    rw [hlo]; exact hl
  have hr : rsiAt closes (m + 14) =
      some (100 - 100 / (1 + specAvgGain closes / specAvgLoss closes)) := by
    unfold rsiAt
    rw [if_neg hlne, hg, hlo]
  unfold latest_rsi rsiSeries
  rw [hlen]
  apply lastValid_mapRange
  show (if 13 ≤ m + 14 then rsiAt closes (m + 14) else none) =
    some (100 - 100 / (1 + specAvgGain closes / specAvgLoss closes))
  rw [if_pos (by omega : (13 : Nat) ≤ m + 14)]
  exact hr

theorem claim_C6_rsi_formula_witness :
    specAvgLoss [1, 3, 2, 4, 3, 5, 4, 6, 5, 7, 6, 8, 7, 9, 8] ≠ 0
  ∧ latest_rsi [1, 3, 2, 4, 3, 5, 4, 6, 5, 7, 6, 8, 7, 9, 8] = some (200 / 3) := by
  have hne : specAvgLoss [1, 3, 2, 4, 3, 5, 4, 6, 5, 7, 6, 8, 7, 9, 8] ≠ 0 := by
    norm_num [specAvgLoss, Finset.sum_range_succ, max_def]
  refine ⟨hne, (claim_C6_rsi_formula _ (by norm_num) hne).trans ?_⟩
  norm_num [specAvgGain, specAvgLoss, Finset.sum_range_succ, max_def]
